import Mathlib

/-!
Verification development for the carbon-site analyser (`src/app.py`).

The Python source is shallowly embedded: pure functions become Lean
functions on `String`/`Nat`/`ℚ`; Python float arithmetic is modelled by
exact rational arithmetic (every float arising in the verified
computations is an exact dyadic rational, so the model agrees with the
source on them); `None`-returning code becomes `Option`, raising code
becomes `Except`.  Third-party library calls (requests, BeautifulSoup,
urllib, tldextract) are not part of the repository; they are modelled
either as explicit oracle parameters (`fetch`, `soupText`, `soupAnchors`,
`uj` for `urljoin`) or, where a claim depends on their concrete
behaviour (`urlparse` netloc extraction, `tldextract` registrable-domain
extraction, Python `round`, `str.count`, `str.lower`, substring `in`),
as small executable models faithful to their documented behaviour on the
inputs the claims exercise.
-/

namespace CarbonSite

/-- Model of Python `str.lower` (ASCII case folding; the keyword lists of the
source are already lower-case). -/
def lowerStr (s : String) : String :=
  (s.data.map Char.toLower).asString

/-- Model of Python `str.count`: number of non-overlapping occurrences of
`kw` in `t`, scanning left to right and advancing by `kw.length` after each
match.  Python's `count` of the empty string returns `len(t) + 1`. -/
def countOccs (kw : List Char) : List Char → Nat
  | [] => if kw = [] then 1 else 0
  | c :: rest =>
    if kw = [] then rest.length + 2
    else if kw <+: (c :: rest) then 1 + countOccs kw (rest.drop (kw.length - 1))
    else countOccs kw rest
termination_by t => t.length
decreasing_by
  · simp only [List.length_cons, List.length_drop]
    omega
  · simp only [List.length_cons]
    omega

/-- RSE keyword taxonomy (`RSE_KEYWORDS` in the source). -/
def RSE_KEYWORDS : List String :=
  ["rse", "responsabilité sociétale", "responsabilité sociale",
   "responsabilite sociétale", "responsabilite sociale",
   "développement durable", "developpement durable", "durable",
   "environnement", "environnemental", "impact environnemental",
   "transition écologique", "transition ecologique", "transition énergétique",
   "transition energetique",
   "esg", "csr", "sustainability", "sustainable", "sustainable development"]

/-- Carbon keyword taxonomy (`CARBON_KEYWORDS` in the source). -/
def CARBON_KEYWORDS : List String :=
  ["bilan carbone", "empreinte carbone", "émissions de co2",
   "emissions de co2", "émissions carbone", "emissions carbone",
   "gaz à effet de serre", "gaz a effet de serre",
   "co2", "réduction des émissions", "reduction des emissions",
   "neutralité carbone", "neutralite carbone",
   "décarbonation", "decarbonation",
   "scope 1", "scope 2", "scope 3"]

/-- Green-IT keyword taxonomy (`GREEN_IT_KEYWORDS` in the source). -/
def GREEN_IT_KEYWORDS : List String :=
  ["numérique responsable", "numerique responsable",
   "éco-conception", "eco-conception", "eco conception",
   "site éco-conçu", "site eco-concu",
   "green it",
   "hébergement vert", "hebergement vert",
   "hébergement écologique", "hebergement ecologique",
   "data center vert",
   "sobriété numérique", "sobriete numerique"]

/-- Page cap, `MAX_PAGES = 20` in the source. -/
def MAX_PAGES : Nat := 20

/-- Default weight multiplier, `DEFAULT_WEIGHT_MULTIPLIER = 3.0`. -/
def DEFAULT_WEIGHT_MULTIPLIER : ℚ := 3

/-- Default energy per GB, `DEFAULT_ENERGY_PER_GB_KWH = 0.5`. -/
def DEFAULT_ENERGY_PER_GB_KWH : ℚ := 1 / 2

/-- Default carbon intensity, `DEFAULT_CARBON_INTENSITY_G_PER_KWH = 300.0`. -/
def DEFAULT_CARBON_INTENSITY_G_PER_KWH : ℚ := 300

/-- Model of Python `round` to the nearest integer: banker's rounding
(round half to even), applied to the exact rational value. -/
def roundHalfEven (q : ℚ) : ℤ :=
  if q - ⌊q⌋ < 1 / 2 then ⌊q⌋
  else if 1 / 2 < q - ⌊q⌋ then ⌊q⌋ + 1
  else if 2 ∣ ⌊q⌋ then ⌊q⌋ else ⌊q⌋ + 1

/-- Model of Python `round(q, d)` on the exact rational value of `q`. -/
def roundTo (d : Nat) (q : ℚ) : ℚ :=
  (roundHalfEven (q * 10 ^ d) : ℚ) / 10 ^ d

/-- Characters that end the authority part of a URL. -/
def takeHostChars (cs : List Char) : List Char :=
  cs.takeWhile (fun c => c != '/' && c != '?' && c != '#')

/-- Splits `cs` at the first occurrence of `"://"`, returning the part before
and the part after it. -/
def schemeSplitAux : List Char → List Char → Option (List Char × List Char)
  | _, [] => none
  | acc, c :: rest =>
    if [':', '/', '/'].isPrefixOf (c :: rest) then some (acc, rest.drop 2)
    else schemeSplitAux (acc ++ [c]) rest

/-- Model of `urllib.parse.urlparse(url).netloc` for the URL shapes this
program handles: the host part is what follows the first `"://"` (or a
leading `"//"`) up to the next `/`, `?` or `#`; a string with neither has no
host component and yields `""`. -/
def netloc (url : String) : String :=
  match schemeSplitAux [] url.data with
  | some (_, rest) => (takeHostChars rest).asString
  | none =>
    if ['/', '/'].isPrefixOf url.data then (takeHostChars (url.data.drop 2)).asString
    else ""

/-- Scheme of a URL: the part before the first `"://"`. -/
def urlScheme (url : String) : String :=
  match schemeSplitAux [] url.data with
  | some (s, _) => s.asString
  | none => ""

/-- Translation of `normalize_base_url`: prepend `https://` when the string
does not start with `http`, then rebuild `scheme://netloc`. -/
def normalize_base_url (url : String) : String :=
  let url2 := if "http".data.isPrefixOf url.data then url else "https://" ++ url
  urlScheme url2 ++ "://" ++ netloc url2

/-- Splits a host into its dot-separated labels. -/
def splitOnDot : List Char → List (List Char)
  | [] => [[]]
  | c :: rest =>
    match splitOnDot rest with
    | [] => [[]]
    | h :: t => if c = '.' then [] :: h :: t else (c :: h) :: t

/-- Labels of a host name. -/
def hostLabels (host : String) : List String :=
  (splitOnDot host.data).map List.asString

/-- Representative public-suffix list used by the `tldextract` model; the
real library ships the full Mozilla list, of which the claims only exercise
these entries. -/
def PUBLIC_SUFFIXES : List (List String) :=
  [["com"], ["org"], ["net"], ["fr"], ["io"], ["uk"], ["co", "uk"], ["gouv", "fr"]]

/-- Longest public suffix matching the end of a label list. -/
def longestSuffix (labels : List String) : List String :=
  PUBLIC_SUFFIXES.foldl
    (fun best s =>
      if s.isSuffixOf labels && decide (best.length < s.length) then s else best)
    []

/-- Joins labels with dots. -/
def joinDots : List String → String
  | [] => ""
  | [s] => s
  | s :: rest => s ++ "." ++ joinDots rest

/-- Model of `tldextract.extract(host)` followed by the source's
`f"{ext.domain}.{ext.suffix}"`: the registrable domain is the label just
before the longest matching public suffix, joined to that suffix. -/
def registrableDomain (host : String) : String :=
  let labels := hostLabels host
  let suffix := longestSuffix labels
  let d :=
    if decide (suffix.length < labels.length) then
      labels.getD (labels.length - suffix.length - 1) ""
    else ""
  d ++ "." ++ joinDots suffix

/-- Registrable domain of a full URL (the source passes `base_url` directly
to `tldextract.extract`, which strips the scheme itself). -/
def registrableOfUrl (u : String) : String :=
  registrableDomain (if netloc u = "" then u else netloc u)

/-- Translation of `is_internal_link`: empty links are external, links with
no host component are internal, otherwise compare registrable domains. -/
def is_internal_link (link : String) (base_domain : String) : Bool :=
  if link = "" then false
  else if netloc link = "" then true
  else registrableDomain (netloc link) == base_domain

/-- Outcome of one `requests.get` call: `none` models a raised transport
exception, `some r` a response with status, `Content-Type` header and body. -/
structure HttpResponse where
  status : Nat
  contentType : String
  body : String

/-- Translation of `fetch_page`: succeed only on status 200 with a
`text/html` content type, returning the body text; anything else, including
a transport fault, yields `none`. -/
def fetch_page (resp : Option HttpResponse) : Option String :=
  match resp with
  | none => none
  | some r =>
    if r.status = 200 ∧ "text/html".data <:+: r.contentType.data then some r.body
    else none

/-- Python truthiness test `not html` on an optional string: `None` and the
empty string are both falsy. -/
def falsy : Option String → Bool
  | none => true
  | some s => s == ""

/-- Translation of `count_keywords`: lowercase the text, and for each
keyword whose lowercased form occurs in it, add its `str.count`. -/
def count_keywords (text : String) (keywords : List String) : Nat :=
  keywords.foldl
    (fun count kw =>
      if (lowerStr kw).data <:+: (lowerStr text).data then
        count + countOccs (lowerStr kw).data (lowerStr text).data
      else count)
    0

/-- Translation of `score_from_hits`: 0 when no hits, saturate at 100 from
`max_hits` hits, otherwise `int(hits / max_hits * 100)` (the float
computation is exact for the ranges used, so it is the floor). -/
def score_from_hits (hits : Nat) (max_hits : Nat) : Nat :=
  if hits ≤ 0 then 0
  else if max_hits ≤ hits then 100
  else (⌊(hits : ℚ) / (max_hits : ℚ) * 100⌋).toNat

/-- Keyword hit counts and derived scores of one page's text
(the dictionary built by `analyze_text`). -/
structure TextScores where
  rse_hits : Nat
  carbon_hits : Nat
  green_it_hits : Nat
  rse_score : Nat
  carbon_score : Nat
  green_it_score : Nat

/-- Translation of `analyze_text`: three independent keyword counts with
their scores (the source calls `score_from_hits` with its default
`max_hits = 20`). -/
def analyze_text (text : String) : TextScores :=
  { rse_hits := count_keywords text RSE_KEYWORDS,
    carbon_hits := count_keywords text CARBON_KEYWORDS,
    green_it_hits := count_keywords text GREEN_IT_KEYWORDS,
    rse_score := score_from_hits (count_keywords text RSE_KEYWORDS) 20,
    carbon_score := score_from_hits (count_keywords text CARBON_KEYWORDS) 20,
    green_it_score := score_from_hits (count_keywords text GREEN_IT_KEYWORDS) 20 }

/-- One analyzed page (`page_info` built by `analyze_page`).  The
display-only structural fields of the source (title, image/script/heading
counts, fonts) are carried by no claim and are omitted. -/
structure PageInfo where
  url : String
  html_kb : ℚ
  text : String
  rse_hits : Nat
  carbon_hits : Nat
  green_it_hits : Nat
  rse_score : Nat
  carbon_score : Nat
  green_it_score : Nat

/-- Translation of `analyze_page`.  Text extraction
(`extract_text`, BeautifulSoup) is an external library and enters as the
oracle `soupText`; `html_kb` is `round(len(html.encode("utf-8"))/1024, 1)`. -/
def analyze_page (soupText : String → String) (html : String) (url : String) : PageInfo :=
  { url := url,
    html_kb := roundTo 1 ((html.utf8ByteSize : ℚ) / 1024),
    text := soupText html,
    rse_hits := (analyze_text (soupText html)).rse_hits,
    carbon_hits := (analyze_text (soupText html)).carbon_hits,
    green_it_hits := (analyze_text (soupText html)).green_it_hits,
    rse_score := (analyze_text (soupText html)).rse_score,
    carbon_score := (analyze_text (soupText html)).carbon_score,
    green_it_score := (analyze_text (soupText html)).green_it_score }

/-- Link-ranking vocabulary (the stem list inlined in
`find_candidate_links`). -/
def LINK_STEMS : List String :=
  ["rse", "responsabilite", "responsabilité",
   "developpement-durable", "developpement durable",
   "durable", "environnement", "carbone", "co2",
   "csr", "sustainab"]

/-- Relevance score of one anchor: 5 points per stem present in the
lowercased absolute URL or the lowercased anchor text (one boolean check
per stem). -/
def linkScore (url_lower : String) (text_lower : String) : Nat :=
  LINK_STEMS.foldl
    (fun score kw =>
      if kw.data <:+: url_lower.data ∨ kw.data <:+: text_lower.data then score + 5
      else score)
    0

/-- Scored internal candidates of a page, in discovery order.  `uj` is the
`urljoin` oracle; `anchors` lists the `(href, anchor text)` pairs of
`soup.find_all("a", href=True)` in document order. -/
def candidatePairs (uj : String → String → String) (base_url : String)
    (anchors : List (String × String)) : List (String × Nat) :=
  anchors.filterMap
    (fun a =>
      if is_internal_link (uj base_url a.1) (registrableOfUrl base_url) then
        some (uj base_url a.1, linkScore (lowerStr (uj base_url a.1)) (lowerStr a.2))
      else none)

/-- Stable insertion into a score-descending list: the new pair goes in
front of the first pair whose score is not larger. -/
def insertDesc (p : String × Nat) : List (String × Nat) → List (String × Nat)
  | [] => [p]
  | q :: rest => if p.2 < q.2 then q :: insertDesc p rest else p :: q :: rest

/-- Model of Python's stable `sorted(links, key=score, reverse=True)`:
insert the pairs from the last to the first, so that earlier pairs end up
in front of later pairs with an equal score. -/
def sortDesc (l : List (String × Nat)) : List (String × Nat) :=
  l.foldr insertDesc []

/-- Translation of the dedupe-and-cap loop at the end of
`find_candidate_links`: keep the first occurrence of each URL, and stop as
soon as the kept list has reached `max_links` entries (the check runs after
each iteration, matching the `break` placement in the source). -/
def rankedLoop (max_links : Nat) :
    List (String × Nat) → List String → List String → List String
  | [], _, acc => acc
  | (url, _) :: rest, seen, acc =>
    if url ∈ seen then
      if max_links ≤ acc.length then acc
      else rankedLoop max_links rest seen acc
    else
      if max_links ≤ (acc ++ [url]).length then acc ++ [url]
      else rankedLoop max_links rest (url :: seen) (acc ++ [url])

/-- Translation of `find_candidate_links`: score the internal anchors,
stable-sort by score descending, deduplicate and cap. -/
def find_candidate_links (uj : String → String → String) (base_url : String)
    (anchors : List (String × String)) (max_links : Nat) : List String :=
  rankedLoop max_links (sortDesc (candidatePairs uj base_url anchors)) [] []

/-- Translation of the candidate loop of `analyze_website`: stop at the
page cap, skip visited links, mark a link visited before fetching it, skip
it when the fetch result is falsy (`None` or empty), otherwise append its
`PageInfo`. -/
def crawlLoop (fetch : String → Option String) (soupText : String → String)
    (max_pages : Nat) :
    List String → List String → List PageInfo → List PageInfo
  | [], _, pages => pages
  | link :: rest, visited, pages =>
    if max_pages ≤ pages.length then pages
    else if link ∈ visited then crawlLoop fetch soupText max_pages rest visited pages
    else
      match fetch link with
      | none => crawlLoop fetch soupText max_pages rest (link :: visited) pages
      | some html =>
        if html = "" then crawlLoop fetch soupText max_pages rest (link :: visited) pages
        else
          crawlLoop fetch soupText max_pages rest (link :: visited)
            (pages ++ [analyze_page soupText html link])

/-- Successful site report (the result dictionary of `analyze_website`;
display-only aggregates carried by no claim — image/script/heading totals,
font resources, the summary sentence — are omitted). -/
structure SiteResult where
  domain : String
  url : String
  pages_scanned : Nat
  has_rse_content : Bool
  has_carbon_mentions : Bool
  has_bilan_carbone_explicit : Bool
  has_green_it : Bool
  global_rse_score : Nat
  global_carbon_score : Nat
  global_green_it_score : Nat
  total_rse_hits : Nat
  total_carbon_hits : Nat
  total_green_it_hits : Nat
  total_html_kb : ℚ
  avg_html_kb : ℚ
  pages_details : List PageInfo

/-- Result of `analyze_website`: either the error dictionary built when the
home page cannot be fetched (it carries `domain`, `url`, the error string
and an empty `pages_details` list) or a full report. -/
inductive SiteReport where
  | failed (domain : String) (url : String) (error : String)
  | success (r : SiteResult)

/-- Page list of a report; the failed dictionary carries
`"pages_details": []`. -/
def pagesDetails : SiteReport → List PageInfo
  | .failed _ _ _ => []
  | .success r => r.pages_details

/-- Aggregation step of `analyze_website` over the crawled pages: sums of
hit counts and sizes, maxima of scores, presence flags, averaged page
size. -/
def buildReport (domain : String) (base_url : String)
    (pages_data : List PageInfo) : SiteResult :=
  { domain := domain,
    url := base_url,
    pages_scanned := pages_data.length,
    has_rse_content := decide (0 < (pages_data.map (·.rse_hits)).sum),
    has_carbon_mentions := decide (0 < (pages_data.map (·.carbon_hits)).sum),
    has_bilan_carbone_explicit :=
      pages_data.any (fun p => decide ("bilan carbone".data <:+: (lowerStr p.text).data)),
    has_green_it := decide (0 < (pages_data.map (·.green_it_hits)).sum),
    global_rse_score := (pages_data.map (·.rse_score)).foldl max 0,
    global_carbon_score := (pages_data.map (·.carbon_score)).foldl max 0,
    global_green_it_score := (pages_data.map (·.green_it_score)).foldl max 0,
    total_rse_hits := (pages_data.map (·.rse_hits)).sum,
    total_carbon_hits := (pages_data.map (·.carbon_hits)).sum,
    total_green_it_hits := (pages_data.map (·.green_it_hits)).sum,
    total_html_kb := (pages_data.map (·.html_kb)).sum,
    avg_html_kb :=
      if 0 < pages_data.length then
        roundTo 1 ((pages_data.map (·.html_kb)).sum / (pages_data.length : ℚ))
      else 0,
    pages_details := pages_data }

/-- Translation of `analyze_website`: normalize the seed, fetch the home
page (a falsy result yields the error report), analyze it, rank candidates
(cap 50), crawl them starting from `visited = {base_url}` and
`pages_data = [home_info]`, and aggregate. -/
def analyze_website (fetch : String → Option String) (soupText : String → String)
    (soupAnchors : String → List (String × String)) (uj : String → String → String)
    (url : String) (max_pages : Nat) : SiteReport :=
  if falsy (fetch (normalize_base_url url)) then
    .failed (netloc (normalize_base_url url)) (normalize_base_url url)
      "Impossible de récupérer la page d'accueil"
  else
    .success
      (buildReport (registrableOfUrl (normalize_base_url url)) (normalize_base_url url)
        (crawlLoop fetch soupText max_pages
          (find_candidate_links uj (normalize_base_url url)
            (soupAnchors ((fetch (normalize_base_url url)).getD "")) 50)
          [normalize_base_url url]
          [analyze_page soupText ((fetch (normalize_base_url url)).getD "")
            (normalize_base_url url)]))

/-- Assumption echo of the carbon estimate (`"assumptions"` in the
result). -/
structure CarbonAssumptions where
  monthly_page_views : ℚ
  weight_multiplier : ℚ
  energy_per_gb_kwh : ℚ
  carbon_intensity_g_per_kwh : ℚ

/-- Result dictionary of `estimate_site_carbon`. -/
structure CarbonEstimate where
  avg_kb_per_page : ℚ
  gco2_per_page_view : ℚ
  monthly_kgco2 : ℚ
  yearly_kgco2 : ℚ
  assumptions : CarbonAssumptions

/-- The `site_result.get("avg_html_kb")` lookup: the failed report
dictionary has no such key. -/
def site_avg_html_kb : SiteReport → Option ℚ
  | .failed _ _ _ => none
  | .success r => some r.avg_html_kb

/-- All rational components of a `CarbonEstimate`, i.e. every numeric value
the estimator exposes to its caller. -/
def estimateComponents (c : CarbonEstimate) : List ℚ :=
  [c.avg_kb_per_page, c.gco2_per_page_view, c.monthly_kgco2, c.yearly_kgco2,
   c.assumptions.monthly_page_views, c.assumptions.weight_multiplier,
   c.assumptions.energy_per_gb_kwh, c.assumptions.carbon_intensity_g_per_kwh]

/-- Translation of `estimate_site_carbon`: raise (`Except.error`) when the
report has no `avg_html_kb`, otherwise run the conversion chain
KB → GB → kWh → gCO₂ → kg/month → kg/year and round the outputs for
display. -/
def estimate_site_carbon (site : SiteReport) (monthly_page_views : ℚ)
    (weight_multiplier : ℚ) (energy_per_gb_kwh : ℚ)
    (carbon_intensity_g_per_kwh : ℚ) : Except String CarbonEstimate :=
  match site_avg_html_kb site with
  | none => .error "Le résultat du site ne contient pas 'avg_html_kb'."
  | some avg_html_kb =>
    let avg_kb_per_page := avg_html_kb * weight_multiplier
    let gb_per_view := avg_kb_per_page / (1024 * 1024)
    let kwh_per_view := gb_per_view * energy_per_gb_kwh
    let gco2_per_view := kwh_per_view * carbon_intensity_g_per_kwh
    let monthly_gco2 := gco2_per_view * monthly_page_views
    let monthly_kgco2 := monthly_gco2 / 1000
    let yearly_kgco2 := monthly_kgco2 * 12
    .ok
      { avg_kb_per_page := roundTo 1 avg_kb_per_page,
        gco2_per_page_view := roundTo 4 gco2_per_view,
        monthly_kgco2 := roundTo 2 monthly_kgco2,
        yearly_kgco2 := roundTo 2 yearly_kgco2,
        assumptions :=
          { monthly_page_views := monthly_page_views,
            weight_multiplier := weight_multiplier,
            energy_per_gb_kwh := energy_per_gb_kwh,
            carbon_intensity_g_per_kwh := carbon_intensity_g_per_kwh } }

/-- A fixed successful report with `avg_html_kb = 100`, used to evaluate the
estimator at the numeric example of the specification. -/
def demoSite : SiteResult :=
  { domain := "example.com",
    url := "https://example.com",
    pages_scanned := 1,
    has_rse_content := false,
    has_carbon_mentions := false,
    has_bilan_carbone_explicit := false,
    has_green_it := false,
    global_rse_score := 0,
    global_carbon_score := 0,
    global_green_it_score := 0,
    total_rse_hits := 0,
    total_carbon_hits := 0,
    total_green_it_hits := 0,
    total_html_kb := 100,
    avg_html_kb := 100,
    pages_details := [] }

/-! Helper lemmas about the keyword scorer. -/

theorem countOccs_eq_zero_of_not_infix (kw : List Char) :
    ∀ t : List Char, ¬ kw <:+: t → countOccs kw t = 0 := by
  intro t
  induction t with
  | nil =>
    intro h
    have hkw : ¬ kw = [] := by
      rintro rfl
      exact h List.nil_infix
    simp [countOccs, hkw]
  | cons c rest ih =>
    intro h
    have hkw : ¬ kw = [] := by
      rintro rfl
      exact h List.nil_infix
    rw [List.infix_cons_iff] at h
    push_neg at h
    rw [countOccs, if_neg hkw, if_neg h.1]
    exact ih h.2

theorem count_keywords_foldl_aux (textl : List Char) :
    ∀ (kws : List String) (n : Nat),
      kws.foldl
        (fun count kw =>
          if (lowerStr kw).data <:+: textl then count + countOccs (lowerStr kw).data textl
          else count) n
      = n + (kws.map (fun kw => countOccs (lowerStr kw).data textl)).sum := by
  intro kws
  induction kws with
  | nil => simp
  | cons kw rest ih =>
    intro n
    by_cases hk : (lowerStr kw).data <:+: textl
    · simp only [List.foldl_cons, if_pos hk, ih, List.map_cons, List.sum_cons]
      omega
    · simp only [List.foldl_cons, if_neg hk, ih, List.map_cons, List.sum_cons,
        countOccs_eq_zero_of_not_infix _ _ hk]
      omega

theorem count_keywords_eq_sum (text : String) (kws : List String) :
    count_keywords text kws
      = (kws.map (fun kw => countOccs (lowerStr kw).data (lowerStr text).data)).sum := by
  simpa using count_keywords_foldl_aux (lowerStr text).data kws 0

theorem score_from_hits_eq (h : Nat) :
    score_from_hits h 20
      = if h = 0 then 0 else if 20 ≤ h then 100 else h * 100 / 20 := by
  unfold score_from_hits
  simp only [Nat.le_zero]
  rcases Nat.eq_zero_or_pos h with h0 | hpos
  · simp [h0]
  · rw [if_neg (by omega), if_neg (by omega : ¬ h = 0)]
    by_cases h20 : 20 ≤ h
    · rw [if_pos h20, if_pos h20]
    · rw [if_neg h20, if_neg h20]
      have h5 : (h : ℚ) / ((20 : ℕ) : ℚ) * 100 = ((5 * h : ℕ) : ℚ) := by
        push_cast
        ring
      rw [h5, Int.floor_natCast, Int.toNat_natCast]
      omega

/-! Helper lemmas about the link-relevance score. -/

theorem linkScore_foldl_aux (u t : String) :
    ∀ (l : List String) (n : Nat),
      l.foldl
        (fun score kw =>
          if kw.data <:+: u.data ∨ kw.data <:+: t.data then score + 5 else score) n
      = n + 5 * l.countP (fun kw => decide (kw.data <:+: u.data ∨ kw.data <:+: t.data)) := by
  intro l
  induction l with
  | nil => simp
  | cons kw rest ih =>
    intro n
    by_cases hk : kw.data <:+: u.data ∨ kw.data <:+: t.data
    · rw [List.foldl_cons, if_pos hk, ih,
        List.countP_cons_of_pos _ _ (by simpa using hk)]
      ring
    · rw [List.foldl_cons, if_neg hk, ih,
        List.countP_cons_of_neg _ _ (by simpa using hk)]

theorem linkScore_eq (u t : String) :
    linkScore u t
      = 5 * LINK_STEMS.countP (fun kw => decide (kw.data <:+: u.data ∨ kw.data <:+: t.data)) := by
  simpa using linkScore_foldl_aux u t LINK_STEMS 0

theorem linkScore_ge_five {u t kw : String} (hmem : kw ∈ LINK_STEMS)
    (hkw : kw.data <:+: u.data ∨ kw.data <:+: t.data) : 5 ≤ linkScore u t := by
  rw [linkScore_eq]
  have hpos :
      0 < LINK_STEMS.countP (fun kw => decide (kw.data <:+: u.data ∨ kw.data <:+: t.data)) :=
    List.countP_pos_iff.mpr ⟨kw, hmem, by simpa using hkw⟩
  omega

/-! Helper lemmas about `foldl max`. -/

theorem le_foldl_max : ∀ (l : List Nat) (a : Nat), a ≤ l.foldl max a := by
  intro l
  induction l with
  | nil => simp
  | cons b rest ih =>
    intro a
    calc a ≤ max a b := le_max_left _ _
      _ ≤ rest.foldl max (max a b) := ih (max a b)

theorem foldl_max_le_of_mem :
    ∀ (l : List Nat) (a x : Nat), x ∈ l → x ≤ l.foldl max a := by
  intro l
  induction l with
  | nil => simp
  | cons b rest ih =>
    intro a x hx
    rcases List.mem_cons.mp hx with rfl | hx
    · calc x ≤ max a x := le_max_right _ _
        _ ≤ rest.foldl max (max a x) := le_foldl_max rest (max a x)
    · exact ih (max a b) x hx

theorem foldl_max_attained :
    ∀ (l : List Nat) (a : Nat), l.foldl max a = a ∨ ∃ x ∈ l, l.foldl max a = x := by
  intro l
  induction l with
  | nil => intro a; simp
  | cons b rest ih =>
    intro a
    rcases ih (max a b) with h | ⟨x, hx, hfx⟩
    · rcases Nat.le_total a b with hab | hba
      · right
        refine ⟨b, List.mem_cons_self _ _, ?_⟩
        simpa [Nat.max_eq_right hab] using h
      · left
        simpa [Nat.max_eq_left hba] using h
    · right
      exact ⟨x, List.mem_cons_of_mem _ hx, hfx⟩

theorem foldl_max_zero_attained (l : List Nat) (hl : l ≠ []) :
    ∃ x ∈ l, l.foldl max 0 = x := by
  rcases foldl_max_attained l 0 with h0 | h
  · match l, hl with
    | b :: rest, _ =>
      refine ⟨b, List.mem_cons_self _ _, ?_⟩
      have hb := foldl_max_le_of_mem (b :: rest) 0 b (List.mem_cons_self _ _)
      omega
  · exact h

/-! Helper lemmas evaluating the rounding model at concrete points. -/

theorem roundTo_of_lt_half (d : Nat) (q : ℚ) (n : ℤ) (hn : ⌊q * 10 ^ d⌋ = n)
    (h : q * 10 ^ d - n < 1 / 2) : roundTo d q = (n : ℚ) / 10 ^ d := by
  unfold roundTo roundHalfEven
  rw [hn, if_pos h]

theorem roundTo_of_gt_half (d : Nat) (q : ℚ) (n : ℤ) (hn : ⌊q * 10 ^ d⌋ = n)
    (h : 1 / 2 < q * 10 ^ d - n) : roundTo d q = ((n : ℚ) + 1) / 10 ^ d := by
  unfold roundTo roundHalfEven
  rw [hn, if_neg (by linarith), if_pos h]
  push_cast
  ring_nf

/-- Unfolded form of the estimator on a successful report: every output
field is the display rounding of the corresponding value of the exact
conversion chain, and the assumptions are echoed unchanged. -/
theorem estimate_ok_eq (r : SiteResult) (v wm e ci : ℚ) :
    estimate_site_carbon (.success r) v wm e ci
      = .ok
          { avg_kb_per_page := roundTo 1 (r.avg_html_kb * wm),
            gco2_per_page_view := roundTo 4 (r.avg_html_kb * wm / (1024 * 1024) * e * ci),
            monthly_kgco2 :=
              roundTo 2 (r.avg_html_kb * wm / (1024 * 1024) * e * ci * v / 1000),
            yearly_kgco2 :=
              roundTo 2 (r.avg_html_kb * wm / (1024 * 1024) * e * ci * v / 1000 * 12),
            assumptions :=
              { monthly_page_views := v, weight_multiplier := wm,
                energy_per_gb_kwh := e, carbon_intensity_g_per_kwh := ci } } := rfl

theorem roundTo_demo_avg : roundTo 1 ((100 : ℚ) * 3) = 300 := by
  have hf : ⌊(100 : ℚ) * 3 * 10 ^ 1⌋ = 3000 := by
    rw [Int.floor_eq_iff]
    norm_num
  rw [roundTo_of_lt_half 1 _ 3000 hf (by norm_num)]
  norm_num

theorem roundTo_demo_gco2 :
    roundTo 4 ((100 : ℚ) * 3 / (1024 * 1024) * (1 / 2) * 300) = 429 / 10000 := by
  have hf : ⌊(100 : ℚ) * 3 / (1024 * 1024) * (1 / 2) * 300 * 10 ^ 4⌋ = 429 := by
    rw [Int.floor_eq_iff]
    norm_num
  rw [roundTo_of_lt_half 4 _ 429 hf (by norm_num)]
  norm_num

theorem roundTo_demo_monthly :
    roundTo 2 ((100 : ℚ) * 3 / (1024 * 1024) * (1 / 2) * 300 * 10000 / 1000)
      = 43 / 100 := by
  have hf :
      ⌊(100 : ℚ) * 3 / (1024 * 1024) * (1 / 2) * 300 * 10000 / 1000 * 10 ^ 2⌋ = 42 := by
    rw [Int.floor_eq_iff]
    norm_num
  rw [roundTo_of_gt_half 2 _ 42 hf (by norm_num)]
  norm_num

theorem roundTo_demo_yearly :
    roundTo 2 ((100 : ℚ) * 3 / (1024 * 1024) * (1 / 2) * 300 * 10000 / 1000 * 12)
      = 103 / 20 := by
  have hf :
      ⌊(100 : ℚ) * 3 / (1024 * 1024) * (1 / 2) * 300 * 10000 / 1000 * 12 * 10 ^ 2⌋
        = 514 := by
    rw [Int.floor_eq_iff]
    norm_num
  rw [roundTo_of_gt_half 2 _ 514 hf (by norm_num)]
  norm_num

/-! Helper lemmas about the stable descending sort. -/

theorem mem_insertDesc (p x : String × Nat) :
    ∀ l, x ∈ insertDesc p l ↔ x = p ∨ x ∈ l := by
  intro l
  induction l with
  | nil => simp [insertDesc]
  | cons q rest ih =>
    by_cases hpq : p.2 < q.2
    · simp only [insertDesc, if_pos hpq, List.mem_cons, ih]
      tauto
    · simp only [insertDesc, if_neg hpq, List.mem_cons]

theorem insertDesc_pairwise (p : String × Nat) :
    ∀ l, l.Pairwise (fun a b : String × Nat => b.2 ≤ a.2) →
      (insertDesc p l).Pairwise (fun a b : String × Nat => b.2 ≤ a.2) := by
  intro l
  induction l with
  | nil =>
    intro _
    simp [insertDesc]
  | cons q rest ih =>
    intro h
    rw [List.pairwise_cons] at h
    by_cases hpq : p.2 < q.2
    · rw [insertDesc, if_pos hpq, List.pairwise_cons]
      refine ⟨?_, ih h.2⟩
      intro x hx
      rcases (mem_insertDesc p x rest).mp hx with rfl | hx
      · exact hpq.le
      · exact h.1 x hx
    · rw [insertDesc, if_neg hpq, List.pairwise_cons]
      refine ⟨?_, List.pairwise_cons.mpr h⟩
      intro x hx
      rcases List.mem_cons.mp hx with rfl | hx
      · omega
      · have := h.1 x hx
        omega

theorem sortDesc_pairwise (l : List (String × Nat)) :
    (sortDesc l).Pairwise (fun a b : String × Nat => b.2 ≤ a.2) := by
  induction l with
  | nil => simp [sortDesc]
  | cons p rest ih => exact insertDesc_pairwise p (sortDesc rest) ih

theorem mem_sortDesc (x : String × Nat) :
    ∀ l, x ∈ sortDesc l ↔ x ∈ l := by
  intro l
  induction l with
  | nil => simp [sortDesc]
  | cons p rest ih =>
    have hstep : sortDesc (p :: rest) = insertDesc p (sortDesc rest) := rfl
    rw [hstep, mem_insertDesc, ih, List.mem_cons]

theorem insertDesc_filter (p : String × Nat) (s : Nat) :
    ∀ l, l.Pairwise (fun a b : String × Nat => b.2 ≤ a.2) →
      (insertDesc p l).filter (fun q => q.2 == s)
        = if p.2 = s then p :: l.filter (fun q => q.2 == s)
          else l.filter (fun q => q.2 == s) := by
  intro l
  induction l with
  | nil =>
    intro _
    by_cases hp : p.2 = s <;> simp [insertDesc, hp]
  | cons q rest ih =>
    intro h
    rw [List.pairwise_cons] at h
    have hrec := ih h.2
    by_cases hpq : p.2 < q.2
    · rw [insertDesc, if_pos hpq, List.filter_cons, hrec]
      by_cases hp : p.2 = s
      · have hq : ¬ (q.2 = s) := by omega
        simp [List.filter_cons, hp, hq]
      · simp [List.filter_cons, hp]
    · rw [insertDesc, if_neg hpq]
      by_cases hp : p.2 = s
      · simp [List.filter_cons, hp]
      · simp [List.filter_cons, hp]

theorem sortDesc_filter (l : List (String × Nat)) (s : Nat) :
    (sortDesc l).filter (fun q => q.2 == s) = l.filter (fun q => q.2 == s) := by
  induction l with
  | nil => rfl
  | cons p rest ih =>
    have hstep : sortDesc (p :: rest) = insertDesc p (sortDesc rest) := rfl
    rw [hstep, insertDesc_filter p s _ (sortDesc_pairwise rest), List.filter_cons]
    by_cases hp : p.2 = s <;> simp [hp, ih]

/-! Helper lemmas about the dedupe-and-cap loop. -/

theorem rankedLoop_spec (m : Nat) :
    ∀ (input : List (String × Nat)) (seen acc : List String),
      ∃ ps : List (String × Nat),
        ps.Sublist input ∧
        rankedLoop m input seen acc = acc ++ ps.map Prod.fst ∧
        (∀ p ∈ ps, p.1 ∉ seen) ∧
        (ps.map Prod.fst).Nodup := by
  intro input
  induction input with
  | nil =>
    intro seen acc
    exact ⟨[], by simp, by simp [rankedLoop], by simp, by simp⟩
  | cons hd rest ih =>
    intro seen acc
    obtain ⟨url, sc⟩ := hd
    by_cases hs : url ∈ seen
    · by_cases hm : m ≤ acc.length
      · refine ⟨[], by simp, ?_, by simp, by simp⟩
        simp only [rankedLoop]
        rw [if_pos hs, if_pos hm]
        simp
      · obtain ⟨ps, h1, h2, h3, h4⟩ := ih seen acc
        refine ⟨ps, h1.cons _, ?_, h3, h4⟩
        simp only [rankedLoop]
        rw [if_pos hs, if_neg hm]
        exact h2
    · by_cases hm : m ≤ (acc ++ [url]).length
      · refine ⟨[(url, sc)], (List.nil_sublist rest).cons₂ _, ?_, ?_, by simp⟩
        · simp only [rankedLoop]
          rw [if_neg hs, if_pos hm]
          simp
        · simpa using hs
      · obtain ⟨ps, h1, h2, h3, h4⟩ := ih (url :: seen) (acc ++ [url])
        refine ⟨(url, sc) :: ps, h1.cons₂ _, ?_, ?_, ?_⟩
        · simp only [rankedLoop]
          rw [if_neg hs, if_neg hm, h2]
          simp
        · intro p hp
          rcases List.mem_cons.mp hp with rfl | hp
          · exact hs
          · intro hmem
            exact (h3 p hp) (List.mem_cons_of_mem _ hmem)
        · rw [List.map_cons, List.nodup_cons]
          refine ⟨?_, h4⟩
          intro hmem
          obtain ⟨p, hp, hfst⟩ := List.mem_map.mp hmem
          exact h3 p hp (hfst ▸ List.mem_cons_self _ _)

theorem rankedLoop_length_le (m : Nat) :
    ∀ (input : List (String × Nat)) (seen acc : List String),
      acc.length < m → (rankedLoop m input seen acc).length ≤ m := by
  intro input
  induction input with
  | nil =>
    intro seen acc h
    simpa [rankedLoop] using h.le
  | cons hd rest ih =>
    intro seen acc h
    obtain ⟨url, sc⟩ := hd
    by_cases hs : url ∈ seen
    · simp only [rankedLoop]
      rw [if_pos hs, if_neg (by omega : ¬ m ≤ acc.length)]
      exact ih _ _ h
    · by_cases hm : m ≤ (acc ++ [url]).length
      · simp only [rankedLoop]
        rw [if_neg hs, if_pos hm]
        simp only [List.length_append, List.length_cons, List.length_nil]
        omega
      · simp only [rankedLoop]
        rw [if_neg hs, if_neg hm]
        apply ih
        simp only [List.length_append, List.length_cons, List.length_nil] at hm ⊢
        omega

theorem candidatePairs_mem {uj : String → String → String} {base_url : String}
    {anchors : List (String × String)} {p : String × Nat}
    (hp : p ∈ candidatePairs uj base_url anchors) :
    (∃ txt, p.2 = linkScore (lowerStr p.1) (lowerStr txt))
      ∧ is_internal_link p.1 (registrableOfUrl base_url) = true := by
  obtain ⟨a, _, hfa⟩ := List.mem_filterMap.mp hp
  by_cases hint : is_internal_link (uj base_url a.1) (registrableOfUrl base_url)
  · rw [if_pos hint] at hfa
    obtain rfl := Option.some.inj hfa
    exact ⟨⟨a.2, rfl⟩, hint⟩
  · rw [if_neg hint] at hfa
    exact absurd hfa (by simp)

/-! Helper lemmas about the crawl loop. -/

theorem crawlLoop_length_le (fetch : String → Option String)
    (soupText : String → String) (m : Nat) :
    ∀ (links visited : List String) (pages : List PageInfo),
      pages.length ≤ m → (crawlLoop fetch soupText m links visited pages).length ≤ m := by
  intro links
  induction links with
  | nil =>
    intro v p h
    simpa [crawlLoop] using h
  | cons link rest ih =>
    intro v p h
    by_cases hm : m ≤ p.length
    · simp only [crawlLoop, if_pos hm]
      exact h
    · by_cases hv : link ∈ v
      · simp only [crawlLoop, if_neg hm, if_pos hv]
        exact ih _ _ h
      · cases hf : fetch link with
        | none =>
          simp only [crawlLoop, if_neg hm, if_neg hv, hf]
          exact ih _ _ h
        | some html =>
          by_cases hh : html = ""
          · simp only [crawlLoop, if_neg hm, if_neg hv, hf, if_pos hh]
            exact ih _ _ h
          · simp only [crawlLoop, if_neg hm, if_neg hv, hf, if_neg hh]
            apply ih
            simp only [List.length_append, List.length_cons, List.length_nil]
            omega

theorem crawlLoop_length_ge (fetch : String → Option String)
    (soupText : String → String) (m : Nat) :
    ∀ (links visited : List String) (pages : List PageInfo),
      pages.length ≤ (crawlLoop fetch soupText m links visited pages).length := by
  intro links
  induction links with
  | nil =>
    intro v p
    simp [crawlLoop]
  | cons link rest ih =>
    intro v p
    by_cases hm : m ≤ p.length
    · simp [crawlLoop, if_pos hm]
    · by_cases hv : link ∈ v
      · simp only [crawlLoop, if_neg hm, if_pos hv]
        exact ih _ _
      · cases hf : fetch link with
        | none =>
          simp only [crawlLoop, if_neg hm, if_neg hv, hf]
          exact ih _ _
        | some html =>
          by_cases hh : html = ""
          · simp only [crawlLoop, if_neg hm, if_neg hv, hf, if_pos hh]
            exact ih _ _
          · simp only [crawlLoop, if_neg hm, if_neg hv, hf, if_neg hh]
            calc p.length ≤ (p ++ [analyze_page soupText html link]).length := by
                  simp
              _ ≤ _ := ih _ _

/-- Home-page fetch truthy: `analyze_website` takes the success path. -/
theorem analyze_website_success (fetch : String → Option String)
    (soupText : String → String) (soupAnchors : String → List (String × String))
    (uj : String → String → String) (url : String) (max_pages : Nat)
    (h : falsy (fetch (normalize_base_url url)) = false) :
    analyze_website fetch soupText soupAnchors uj url max_pages
      = .success
          (buildReport (registrableOfUrl (normalize_base_url url)) (normalize_base_url url)
            (crawlLoop fetch soupText max_pages
              (find_candidate_links uj (normalize_base_url url)
                (soupAnchors ((fetch (normalize_base_url url)).getD "")) 50)
              [normalize_base_url url]
              [analyze_page soupText ((fetch (normalize_base_url url)).getD "")
                (normalize_base_url url)])) := by
  unfold analyze_website
  rw [if_neg (by simp [h])]

/-! Claim theorems. -/

/-- C1: for every average HTML size, monthly page views and model constants,
the carbon estimator computes exactly the chain
`avgKbPerPage = avgHtmlKb * weightMultiplier`,
`gbPerView = avgKbPerPage / (1024*1024)`, `kwhPerView = gbPerView *
energyPerGbKwh`, `gco2PerView = kwhPerView * carbonIntensityGPerKwh`,
`monthlyKgCo2 = gco2PerView * monthlyPageViews / 1000`,
`yearlyKgCo2 = monthlyKgCo2 * 12` (each output displayed under the source's
rounding), and the defaults are 3.0, 0.5 and 300. -/
theorem C1_estimator_chain (r : SiteResult) (views wm e ci : ℚ) :
    estimate_site_carbon (.success r) views wm e ci
      = .ok
          { avg_kb_per_page := roundTo 1 (r.avg_html_kb * wm),
            gco2_per_page_view := roundTo 4 (r.avg_html_kb * wm / (1024 * 1024) * e * ci),
            monthly_kgco2 :=
              roundTo 2 (r.avg_html_kb * wm / (1024 * 1024) * e * ci * views / 1000),
            yearly_kgco2 :=
              roundTo 2 (r.avg_html_kb * wm / (1024 * 1024) * e * ci * views / 1000 * 12),
            assumptions :=
              { monthly_page_views := views, weight_multiplier := wm,
                energy_per_gb_kwh := e, carbon_intensity_g_per_kwh := ci } }
      ∧ DEFAULT_WEIGHT_MULTIPLIER = 3
      ∧ DEFAULT_ENERGY_PER_GB_KWH = 1 / 2
      ∧ DEFAULT_CARBON_INTENSITY_G_PER_KWH = 300 :=
  ⟨estimate_ok_eq r views wm e ci, rfl, rfl, rfl⟩

/-- C2: for every text, the raw hit count of each of the three keyword lists
is the sum over the keywords of the non-overlapping occurrence counts in the
lowercased text, and the derived score is 0 at 0 hits, 100 from 20 hits up,
and `floor(hits/20*100)` in between; in particular 20 hits give 100, 10 hits
give 50, and no hits give 0. -/
theorem C2_keyword_scorer (text : String) :
    (count_keywords text RSE_KEYWORDS
        = (RSE_KEYWORDS.map (fun kw => countOccs (lowerStr kw).data (lowerStr text).data)).sum)
    ∧ (count_keywords text CARBON_KEYWORDS
        = (CARBON_KEYWORDS.map (fun kw => countOccs (lowerStr kw).data (lowerStr text).data)).sum)
    ∧ (count_keywords text GREEN_IT_KEYWORDS
        = (GREEN_IT_KEYWORDS.map (fun kw => countOccs (lowerStr kw).data (lowerStr text).data)).sum)
    ∧ (∀ h : Nat, score_from_hits h 20
        = if h = 0 then 0 else if 20 ≤ h then 100 else h * 100 / 20)
    ∧ score_from_hits 20 20 = 100
    ∧ score_from_hits 10 20 = 50
    ∧ score_from_hits 0 20 = 0 :=
  ⟨count_keywords_eq_sum text RSE_KEYWORDS,
   count_keywords_eq_sum text CARBON_KEYWORDS,
   count_keywords_eq_sum text GREEN_IT_KEYWORDS,
   score_from_hits_eq,
   by rw [score_from_hits_eq]; decide,
   by rw [score_from_hits_eq]; decide,
   by rw [score_from_hits_eq]; decide⟩

/-- C3: when the home-page fetch fails, the crawl returns the FAILED report
(with the domain, the base URL, a non-empty human-readable reason and an
empty page list), and the carbon estimator invoked on that report fails with
the missing-`avg_html_kb` validation error rather than defaulting. -/
theorem C3_failed_crawl (fetch : String → Option String) (soupText : String → String)
    (soupAnchors : String → List (String × String)) (uj : String → String → String)
    (url : String) (max_pages : Nat) (v wm e ci : ℚ)
    (h : fetch (normalize_base_url url) = none) :
    analyze_website fetch soupText soupAnchors uj url max_pages
      = .failed (netloc (normalize_base_url url)) (normalize_base_url url)
          "Impossible de récupérer la page d'accueil"
    ∧ pagesDetails (analyze_website fetch soupText soupAnchors uj url max_pages) = []
    ∧ "Impossible de récupérer la page d'accueil" ≠ ""
    ∧ estimate_site_carbon (analyze_website fetch soupText soupAnchors uj url max_pages)
        v wm e ci
      = .error "Le résultat du site ne contient pas 'avg_html_kb'." := by
  have hrep :
      analyze_website fetch soupText soupAnchors uj url max_pages
        = .failed (netloc (normalize_base_url url)) (normalize_base_url url)
            "Impossible de récupérer la page d'accueil" := by
    unfold analyze_website
    rw [h]
    rfl
  refine ⟨hrep, by rw [hrep]; rfl, by decide, by rw [hrep]; rfl⟩

/-- C7 counterexample: at `avgHtmlKb = 100`, `views = 10000` and the default
constants, the displayed yearly figure is 5.15 kgCO₂, which differs from the
claimed ≈ 5.04 by 0.11 — far beyond the 2-decimal display rounding. -/
theorem C7_display_counterexample :
    (estimate_site_carbon (.success demoSite) 10000 3 (1 / 2) 300).toOption.map
        (fun est => est.yearly_kgco2) = some (103 / 20)
    ∧ (504 / 100 : ℚ) + 1 / 10 ≤ 103 / 20
    ∧ ((103 : ℚ) / 20) ≠ 504 / 100 := by
  refine ⟨?_, by norm_num, by norm_num⟩
  rw [estimate_ok_eq]
  have hd : demoSite.avg_html_kb = 100 := rfl
  simp only [Except.toOption, Option.map, hd, roundTo_demo_yearly]

/-- C7 as amended: at `avgHtmlKb = 100`, `views = 10000`, multiplier 3,
energy 0.5, intensity 300, the displayed outputs are `avgKbPerPage = 300.0`,
`gco2PerView = 0.0429`, `monthlyKgCo2 = 0.43` and `yearlyKgCo2 = 5.15`
(1-, 4-, 2- and 2-decimal roundings of the exact chain values). -/
theorem C7_display_values :
    estimate_site_carbon (.success demoSite) 10000 3 (1 / 2) 300
      = .ok
          { avg_kb_per_page := 300,
            gco2_per_page_view := 429 / 10000,
            monthly_kgco2 := 43 / 100,
            yearly_kgco2 := 103 / 20,
            assumptions :=
              { monthly_page_views := 10000, weight_multiplier := 3,
                energy_per_gb_kwh := 1 / 2, carbon_intensity_g_per_kwh := 300 } } := by
  rw [estimate_ok_eq]
  have hd : demoSite.avg_html_kb = 100 := rfl
  rw [hd, roundTo_demo_avg, roundTo_demo_gco2, roundTo_demo_monthly, roundTo_demo_yearly]

/-- C8 counterexample: at the example input every value the estimator's
result exposes is a rounded display value or an assumption echo; the exact
unrounded yearly value `84375/16384` (≈ 5.1498) of the claimed chain is not
among them, so no unrounded value is exposed. -/
theorem C8_unrounded_counterexample :
    (estimate_site_carbon (.success demoSite) 10000 3 (1 / 2) 300).toOption.map
        estimateComponents
      = some [300, 429 / 10000, 43 / 100, 103 / 20, 10000, 3, 1 / 2, 300]
    ∧ demoSite.avg_html_kb * 3 / (1024 * 1024) * (1 / 2) * 300 * 10000 / 1000 * 12
        = (84375 : ℚ) / 16384
    ∧ ((84375 : ℚ) / 16384)
        ∉ ([300, 429 / 10000, 43 / 100, 103 / 20, 10000, 3, 1 / 2, 300] : List ℚ) := by
  refine ⟨?_, ?_, ?_⟩
  · rw [estimate_ok_eq]
    have hd : demoSite.avg_html_kb = 100 := rfl
    simp only [Except.toOption, Option.map, hd, roundTo_demo_avg, roundTo_demo_gco2,
      roundTo_demo_monthly, roundTo_demo_yearly, estimateComponents]
  · have hd : demoSite.avg_html_kb = 100 := rfl
    rw [hd]
    norm_num
  · simp only [List.mem_cons, List.not_mem_nil, or_false]
    push_neg
    norm_num

/-- C8 as amended: for every valid input the estimator's result exposes
exactly the display-rounded values (`avgKbPerPage` to 1 decimal,
`gco2PerView` to 4, the kg figures to 2) together with the echoed input
assumptions; no unrounded chain value is part of the result. -/
theorem C8_components_rounded (r : SiteResult) (v wm e ci : ℚ) :
    (estimate_site_carbon (.success r) v wm e ci).toOption.map estimateComponents
      = some
          [roundTo 1 (r.avg_html_kb * wm),
           roundTo 4 (r.avg_html_kb * wm / (1024 * 1024) * e * ci),
           roundTo 2 (r.avg_html_kb * wm / (1024 * 1024) * e * ci * v / 1000),
           roundTo 2 (r.avg_html_kb * wm / (1024 * 1024) * e * ci * v / 1000 * 12),
           v, wm, e, ci] := by
  rw [estimate_ok_eq]
  rfl

/-- C9 counterexample: the empty URL has no host component, yet the
classifier returns external for it (the source's `if not link: return False`
guard fires before the no-netloc test). -/
theorem C9_empty_link_counterexample :
    netloc "" = "" ∧ is_internal_link "" "example.com" = false := by
  constructor
  · rfl
  · rfl

/-- C9 as amended: every non-empty URL without a host component is internal
(the empty URL is classified external); a URL with a host is internal
exactly when its registrable domain equals the base's; in particular, for
base `example.com`, `https://shop.example.com/a` is internal,
`https://example.co.uk` is external, and `/relative/path` is internal. -/
theorem C9_domain_classifier :
    (∀ link : String, link ≠ "" → netloc link = "" →
      ∀ bd : String, is_internal_link link bd = true)
    ∧ (∀ link bd : String, netloc link ≠ "" →
        (is_internal_link link bd = true ↔ registrableDomain (netloc link) = bd))
    ∧ is_internal_link "https://shop.example.com/a" "example.com" = true
    ∧ is_internal_link "https://example.co.uk" "example.com" = false
    ∧ is_internal_link "/relative/path" "example.com" = true := by
  refine ⟨?_, ?_, by decide, by decide, by decide⟩
  · intro link h1 h2 bd
    simp [is_internal_link, h1, h2]
  · intro link bd h
    have h1 : link ≠ "" := by
      rintro rfl
      exact h rfl
    simp [is_internal_link, h1, h]

/-- C10: a 200 `text/html` response with an empty body is returned by the
fetcher as the empty string, which the caller's truthiness tests treat
exactly like an unavailable page: at the home page the crawl produces the
FAILED report, and a candidate with an empty body is skipped with no
`PageInfo` appended. -/
theorem C10_empty_body_like_failure :
    (∀ ct body : String, "text/html".data <:+: ct.data →
      fetch_page (some { status := 200, contentType := ct, body := body }) = some body)
    ∧ (∀ (fetch : String → Option String) (soupText : String → String)
          (soupAnchors : String → List (String × String))
          (uj : String → String → String) (url : String),
        fetch (normalize_base_url url) = some "" →
        analyze_website fetch soupText soupAnchors uj url MAX_PAGES
          = .failed (netloc (normalize_base_url url)) (normalize_base_url url)
              "Impossible de récupérer la page d'accueil")
    ∧ (∀ (fetch : String → Option String) (soupText : String → String)
          (link : String) (rest visited : List String) (pages : List PageInfo),
        pages.length < MAX_PAGES → link ∉ visited → fetch link = some "" →
        crawlLoop fetch soupText MAX_PAGES (link :: rest) visited pages
          = crawlLoop fetch soupText MAX_PAGES rest (link :: visited) pages) := by
  refine ⟨?_, ?_, ?_⟩
  · intro ct body hct
    simp [fetch_page, hct]
  · intro fetch soupText soupAnchors uj url hf
    unfold analyze_website
    rw [hf]
    rfl
  · intro fetch soupText link rest visited pages hlen hvis hf
    simp only [crawlLoop]
    rw [if_neg (by omega : ¬ MAX_PAGES ≤ pages.length), if_neg hvis, hf]
    rfl

/-- C5: on every successful crawl the report's per-taxonomy totals are the
sums of the per-page hit counts, the site-level scores are the maxima (not
sums) of the per-page scores, and the flags hold exactly when the
corresponding total is positive (resp. when some page's text contains the
literal phrase "bilan carbone"). -/
theorem C5_aggregation (fetch : String → Option String) (soupText : String → String)
    (soupAnchors : String → List (String × String)) (uj : String → String → String)
    (url : String) (max_pages : Nat)
    (h : falsy (fetch (normalize_base_url url)) = false) :
    ∃ r : SiteResult,
      analyze_website fetch soupText soupAnchors uj url max_pages = .success r
      ∧ r.total_rse_hits = (r.pages_details.map (·.rse_hits)).sum
      ∧ r.total_carbon_hits = (r.pages_details.map (·.carbon_hits)).sum
      ∧ r.total_green_it_hits = (r.pages_details.map (·.green_it_hits)).sum
      ∧ (∀ p ∈ r.pages_details, p.rse_score ≤ r.global_rse_score)
      ∧ (∃ p ∈ r.pages_details, r.global_rse_score = p.rse_score)
      ∧ (∀ p ∈ r.pages_details, p.carbon_score ≤ r.global_carbon_score)
      ∧ (∃ p ∈ r.pages_details, r.global_carbon_score = p.carbon_score)
      ∧ (∀ p ∈ r.pages_details, p.green_it_score ≤ r.global_green_it_score)
      ∧ (∃ p ∈ r.pages_details, r.global_green_it_score = p.green_it_score)
      ∧ (r.has_rse_content = true ↔ 0 < r.total_rse_hits)
      ∧ (r.has_carbon_mentions = true ↔ 0 < r.total_carbon_hits)
      ∧ (r.has_green_it = true ↔ 0 < r.total_green_it_hits)
      ∧ (r.has_bilan_carbone_explicit = true
          ↔ ∃ p ∈ r.pages_details, "bilan carbone".data <:+: (lowerStr p.text).data) := by
  have hne : crawlLoop fetch soupText max_pages
      (find_candidate_links uj (normalize_base_url url)
        (soupAnchors ((fetch (normalize_base_url url)).getD "")) 50)
      [normalize_base_url url]
      [analyze_page soupText ((fetch (normalize_base_url url)).getD "")
        (normalize_base_url url)] ≠ [] := by
    have hge := crawlLoop_length_ge fetch soupText max_pages
      (find_candidate_links uj (normalize_base_url url)
        (soupAnchors ((fetch (normalize_base_url url)).getD "")) 50)
      [normalize_base_url url]
      [analyze_page soupText ((fetch (normalize_base_url url)).getD "")
        (normalize_base_url url)]
    intro hnil
    rw [hnil] at hge
    simp at hge
  refine ⟨_, analyze_website_success fetch soupText soupAnchors uj url max_pages h,
    rfl, rfl, rfl, ?_, ?_, ?_, ?_, ?_, ?_, decide_eq_true_iff, decide_eq_true_iff,
    decide_eq_true_iff, by simp only [buildReport, List.any_eq_true, decide_eq_true_iff]⟩
  · intro p hp
    exact foldl_max_le_of_mem _ 0 _ (List.mem_map_of_mem _ hp)
  · obtain ⟨x, hx, heq⟩ :=
      foldl_max_zero_attained _
        (fun hnil => hne (List.map_eq_nil_iff.mp hnil) :
          (crawlLoop fetch soupText max_pages
              (find_candidate_links uj (normalize_base_url url)
                (soupAnchors ((fetch (normalize_base_url url)).getD "")) 50)
              [normalize_base_url url]
              [analyze_page soupText ((fetch (normalize_base_url url)).getD "")
                (normalize_base_url url)]).map (·.rse_score) ≠ [])
    obtain ⟨p, hp, rfl⟩ := List.mem_map.mp hx
    exact ⟨p, hp, heq⟩
  · intro p hp
    exact foldl_max_le_of_mem _ 0 _ (List.mem_map_of_mem _ hp)
  · obtain ⟨x, hx, heq⟩ :=
      foldl_max_zero_attained _
        (fun hnil => hne (List.map_eq_nil_iff.mp hnil) :
          (crawlLoop fetch soupText max_pages
              (find_candidate_links uj (normalize_base_url url)
                (soupAnchors ((fetch (normalize_base_url url)).getD "")) 50)
              [normalize_base_url url]
              [analyze_page soupText ((fetch (normalize_base_url url)).getD "")
                (normalize_base_url url)]).map (·.carbon_score) ≠ [])
    obtain ⟨p, hp, rfl⟩ := List.mem_map.mp hx
    exact ⟨p, hp, heq⟩
  · intro p hp
    exact foldl_max_le_of_mem _ 0 _ (List.mem_map_of_mem _ hp)
  · obtain ⟨x, hx, heq⟩ :=
      foldl_max_zero_attained _
        (fun hnil => hne (List.map_eq_nil_iff.mp hnil) :
          (crawlLoop fetch soupText max_pages
              (find_candidate_links uj (normalize_base_url url)
                (soupAnchors ((fetch (normalize_base_url url)).getD "")) 50)
              [normalize_base_url url]
              [analyze_page soupText ((fetch (normalize_base_url url)).getD "")
                (normalize_base_url url)]).map (·.green_it_score) ≠ [])
    obtain ⟨p, hp, rfl⟩ := List.mem_map.mp hx
    exact ⟨p, hp, heq⟩

/-- C6: on every successful crawl with the default page cap the number of
scanned pages lies between 1 (the home page) and 20, however many candidates
exist; a candidate whose fetch fails is skipped without consuming a
page-count slot, and an already-visited candidate is skipped, the loop
continuing with the remaining candidates in both cases. -/
theorem C6_page_cap (fetch : String → Option String) (soupText : String → String)
    (soupAnchors : String → List (String × String)) (uj : String → String → String)
    (url : String)
    (h : falsy (fetch (normalize_base_url url)) = false) :
    (∃ r : SiteResult,
        analyze_website fetch soupText soupAnchors uj url MAX_PAGES = .success r
        ∧ 1 ≤ r.pages_scanned ∧ r.pages_scanned ≤ 20)
    ∧ (∀ (link : String) (rest visited : List String) (pages : List PageInfo),
        pages.length < MAX_PAGES → link ∉ visited → fetch link = none →
        crawlLoop fetch soupText MAX_PAGES (link :: rest) visited pages
          = crawlLoop fetch soupText MAX_PAGES rest (link :: visited) pages)
    ∧ (∀ (link : String) (rest visited : List String) (pages : List PageInfo),
        pages.length < MAX_PAGES → link ∈ visited →
        crawlLoop fetch soupText MAX_PAGES (link :: rest) visited pages
          = crawlLoop fetch soupText MAX_PAGES rest visited pages) := by
  refine ⟨⟨_, analyze_website_success fetch soupText soupAnchors uj url MAX_PAGES h,
      ?_, ?_⟩, ?_, ?_⟩
  · show 1 ≤ (crawlLoop fetch soupText MAX_PAGES
      (find_candidate_links uj (normalize_base_url url)
        (soupAnchors ((fetch (normalize_base_url url)).getD "")) 50)
      [normalize_base_url url]
      [analyze_page soupText ((fetch (normalize_base_url url)).getD "")
        (normalize_base_url url)]).length
    simpa using crawlLoop_length_ge fetch soupText MAX_PAGES
      (find_candidate_links uj (normalize_base_url url)
        (soupAnchors ((fetch (normalize_base_url url)).getD "")) 50)
      [normalize_base_url url]
      [analyze_page soupText ((fetch (normalize_base_url url)).getD "")
        (normalize_base_url url)]
  · show (crawlLoop fetch soupText MAX_PAGES
      (find_candidate_links uj (normalize_base_url url)
        (soupAnchors ((fetch (normalize_base_url url)).getD "")) 50)
      [normalize_base_url url]
      [analyze_page soupText ((fetch (normalize_base_url url)).getD "")
        (normalize_base_url url)]).length ≤ 20
    exact crawlLoop_length_le fetch soupText MAX_PAGES _ _ _ (by simp [MAX_PAGES])
  · intro link rest visited pages hlen hvis hf
    simp only [crawlLoop]
    rw [if_neg (by omega : ¬ MAX_PAGES ≤ pages.length), if_neg hvis, hf]
  · intro link rest visited pages hlen hvis
    simp only [crawlLoop]
    rw [if_neg (by omega : ¬ MAX_PAGES ≤ pages.length), if_pos hvis]

/-- C4 counterexample: with a requested maximum of 0 links, the dedupe loop
still appends the first candidate before testing the cap, so the returned
list has length 1 > 0 — the claimed bound fails at maximum 0. -/
theorem C4_zero_cap_counterexample :
    ¬ ((find_candidate_links (fun _ href => href) "https://example.com"
          [("https://example.com/a", "")] 0).length ≤ 0) := by
  decide

/-- C4 as amended: for a maximum of at least 1 (the bound fails only at 0),
the Link Discoverer returns unique internal URLs, at most the maximum of
them; each anchor scores 5 per vocabulary stem found in the lowercased URL
or anchor text by a single boolean check; the scored candidates are sorted
descending, stably (the sublist of each score class is preserved); the
output is that sorted order with duplicates removed; and a URL containing
"carbone" ranks strictly before a URL none of whose occurrences match any
stem. -/
theorem C4_link_discoverer (uj : String → String → String) (base_url : String)
    (anchors : List (String × String)) (max_links : Nat) (hmax : 1 ≤ max_links) :
    (find_candidate_links uj base_url anchors max_links).Nodup
    ∧ (find_candidate_links uj base_url anchors max_links).length ≤ max_links
    ∧ (∀ u ∈ find_candidate_links uj base_url anchors max_links,
        is_internal_link u (registrableOfUrl base_url) = true)
    ∧ (∀ u t : String, linkScore u t
        = 5 * LINK_STEMS.countP (fun kw => decide (kw.data <:+: u.data ∨ kw.data <:+: t.data)))
    ∧ (sortDesc (candidatePairs uj base_url anchors)).Pairwise
        (fun a b : String × Nat => b.2 ≤ a.2)
    ∧ (∀ s : Nat,
        (sortDesc (candidatePairs uj base_url anchors)).filter (fun q => q.2 == s)
          = (candidatePairs uj base_url anchors).filter (fun q => q.2 == s))
    ∧ (∃ ps : List (String × Nat),
        ps.Sublist (sortDesc (candidatePairs uj base_url anchors))
          ∧ find_candidate_links uj base_url anchors max_links = ps.map Prod.fst)
    ∧ (∀ u w : String,
        u ∈ find_candidate_links uj base_url anchors max_links →
        w ∈ find_candidate_links uj base_url anchors max_links →
        "carbone".data <:+: (lowerStr u).data →
        (∀ p ∈ candidatePairs uj base_url anchors, p.1 = w → p.2 = 0) →
        u ≠ w →
        (find_candidate_links uj base_url anchors max_links).indexOf u
          < (find_candidate_links uj base_url anchors max_links).indexOf w) := by
  obtain ⟨ps, hsub, heq, _, hnodup⟩ :=
    rankedLoop_spec max_links (sortDesc (candidatePairs uj base_url anchors)) [] []
  have hout : find_candidate_links uj base_url anchors max_links = ps.map Prod.fst := by
    rw [find_candidate_links, heq]
    simp
  have hmem : ∀ u ∈ find_candidate_links uj base_url anchors max_links,
      ∃ p ∈ candidatePairs uj base_url anchors, p.1 = u := by
    intro u hu
    rw [hout] at hu
    obtain ⟨p, hp, rfl⟩ := List.mem_map.mp hu
    exact ⟨p, (mem_sortDesc p _).mp (List.Sublist.mem hp hsub), rfl⟩
  refine ⟨hout ▸ hnodup, ?_, ?_, linkScore_eq, sortDesc_pairwise _, sortDesc_filter _,
    ⟨ps, hsub, hout⟩, ?_⟩
  · rw [find_candidate_links]
    exact rankedLoop_length_le max_links _ [] [] (by simpa using hmax)
  · intro u hu
    obtain ⟨p, hp, rfl⟩ := hmem u hu
    exact (candidatePairs_mem hp).2
  · intro u w hu hw hcarb hw0 huw
    rw [hout] at hu hw ⊢
    have hulen : (ps.map Prod.fst).indexOf u < (ps.map Prod.fst).length :=
      List.indexOf_lt_length.mpr hu
    have hwlen : (ps.map Prod.fst).indexOf w < (ps.map Prod.fst).length :=
      List.indexOf_lt_length.mpr hw
    have hul : (ps.map Prod.fst).indexOf u < ps.length := by simpa using hulen
    have hwl : (ps.map Prod.fst).indexOf w < ps.length := by simpa using hwlen
    have hgetu : (ps.get ⟨(ps.map Prod.fst).indexOf u, hul⟩).1 = u := by
      have h1 : (ps.map Prod.fst)[(ps.map Prod.fst).indexOf u] = u :=
        List.getElem_indexOf hulen
      rw [List.getElem_map] at h1
      exact h1
    have hgetw : (ps.get ⟨(ps.map Prod.fst).indexOf w, hwl⟩).1 = w := by
      have h1 : (ps.map Prod.fst)[(ps.map Prod.fst).indexOf w] = w :=
        List.getElem_indexOf hwlen
      rw [List.getElem_map] at h1
      exact h1
    have hpw :=
      List.Pairwise.sublist hsub (sortDesc_pairwise (candidatePairs uj base_url anchors))
    rw [List.pairwise_iff_getElem] at hpw
    have hps_mem : ∀ i : Fin ps.length, ps.get i ∈ candidatePairs uj base_url anchors := by
      intro i
      refine (mem_sortDesc _ _).mp (List.Sublist.mem ?_ hsub)
      exact List.getElem_mem i.2
    rcases Nat.lt_trichotomy
        ((ps.map Prod.fst).indexOf u) ((ps.map Prod.fst).indexOf w) with h | h | h
    · exact h
    · exfalso
      apply huw
      have hfin : (⟨(ps.map Prod.fst).indexOf u, hul⟩ : Fin ps.length)
          = ⟨(ps.map Prod.fst).indexOf w, hwl⟩ := Fin.ext h
      rw [← hgetu, ← hgetw, congrArg ps.get hfin]
    · exfalso
      have h5 : 5 ≤ (ps.get ⟨(ps.map Prod.fst).indexOf u, hul⟩).2 := by
        obtain ⟨⟨txt, hsc⟩, _⟩ :=
          candidatePairs_mem (hps_mem ⟨(ps.map Prod.fst).indexOf u, hul⟩)
        rw [hsc, hgetu]
        exact @linkScore_ge_five _ _ "carbone" (by decide) (Or.inl hcarb)
      have h0 : (ps.get ⟨(ps.map Prod.fst).indexOf w, hwl⟩).2 = 0 :=
        hw0 _ (hps_mem ⟨(ps.map Prod.fst).indexOf w, hwl⟩) hgetw
      have hcmp : (ps.get ⟨(ps.map Prod.fst).indexOf u, hul⟩).2
          ≤ (ps.get ⟨(ps.map Prod.fst).indexOf w, hwl⟩).2 := hpw _ _ hwl hul h
      omega

/-! Witnesses: each hypothesis-bearing claim theorem applied at a concrete
input. -/

theorem C3_failed_crawl_witness :
    (fun _ : String => (none : Option String)) (normalize_base_url "example.com") = none
    ∧ analyze_website (fun _ => none) (fun _ => "") (fun _ => []) (fun b h => b ++ h)
        "example.com" MAX_PAGES
      = .failed (netloc (normalize_base_url "example.com")) (normalize_base_url "example.com")
          "Impossible de récupérer la page d'accueil" :=
  ⟨rfl,
   (C3_failed_crawl (fun _ => none) (fun _ => "") (fun _ => []) (fun b h => b ++ h)
     "example.com" MAX_PAGES 1 1 1 1 rfl).1⟩

theorem C4_link_discoverer_witness :
    1 ≤ 3
    ∧ (find_candidate_links (fun _ href => href) "https://example.com"
        [("https://example.com/a", "")] 3).length ≤ 3 :=
  ⟨by decide,
   (C4_link_discoverer (fun _ href => href) "https://example.com"
     [("https://example.com/a", "")] 3 (by decide)).2.1⟩

theorem C5_aggregation_witness :
    falsy ((fun _ : String => some "page") (normalize_base_url "example.com")) = false
    ∧ ∃ r : SiteResult,
        analyze_website (fun _ => some "page") (fun _ => "bilan carbone rse")
          (fun _ => []) (fun b h => b ++ h) "example.com" MAX_PAGES = .success r
        ∧ r.total_rse_hits = (r.pages_details.map (·.rse_hits)).sum := by
  have h : falsy ((fun _ : String => some "page") (normalize_base_url "example.com"))
      = false := by decide
  obtain ⟨r, h1, h2, _⟩ := C5_aggregation (fun _ => some "page")
    (fun _ => "bilan carbone rse") (fun _ => []) (fun b h => b ++ h)
    "example.com" MAX_PAGES h
  exact ⟨h, r, h1, h2⟩

theorem C6_page_cap_witness :
    falsy ((fun _ : String => some "page") (normalize_base_url "example.org")) = false
    ∧ ∃ r : SiteResult,
        analyze_website (fun _ => some "page") (fun _ => "") (fun _ => [])
          (fun b h => b ++ h) "example.org" MAX_PAGES = .success r
        ∧ 1 ≤ r.pages_scanned ∧ r.pages_scanned ≤ 20 := by
  have h : falsy ((fun _ : String => some "page") (normalize_base_url "example.org"))
      = false := by decide
  exact ⟨h, (C6_page_cap (fun _ => some "page") (fun _ => "") (fun _ => [])
    (fun b h => b ++ h) "example.org" h).1⟩

theorem C9_domain_classifier_witness :
    ("/relative/path" ≠ "" ∧ netloc "/relative/path" = ""
      ∧ is_internal_link "/relative/path" "other.example" = true)
    ∧ (netloc "https://example.co.uk" ≠ ""
      ∧ (is_internal_link "https://example.co.uk" "example.com" = true
          ↔ registrableDomain (netloc "https://example.co.uk") = "example.com")) :=
  ⟨⟨by decide, by decide,
    C9_domain_classifier.1 "/relative/path" (by decide) (by decide) "other.example"⟩,
   ⟨by decide,
    C9_domain_classifier.2.1 "https://example.co.uk" "example.com" (by decide)⟩⟩

theorem C10_empty_body_witness :
    ("text/html".data <:+: "text/html; charset=utf-8".data
      ∧ fetch_page
          (some { status := 200, contentType := "text/html; charset=utf-8", body := "" })
        = some "")
    ∧ ((fun _ : String => some "") (normalize_base_url "example.com") = some ""
      ∧ analyze_website (fun _ => some "") (fun _ => "") (fun _ => []) (fun b h => b ++ h)
          "example.com" MAX_PAGES
        = .failed (netloc (normalize_base_url "example.com"))
            (normalize_base_url "example.com")
            "Impossible de récupérer la page d'accueil")
    ∧ (([] : List PageInfo).length < MAX_PAGES
      ∧ "https://example.com/a" ∉ ([] : List String)
      ∧ crawlLoop (fun _ => some "") (fun _ => "") MAX_PAGES
          ["https://example.com/a"] [] []
        = crawlLoop (fun _ => some "") (fun _ => "") MAX_PAGES
            [] ["https://example.com/a"] []) :=
  ⟨⟨by decide,
    C10_empty_body_like_failure.1 "text/html; charset=utf-8" "" (by decide)⟩,
   ⟨rfl,
    C10_empty_body_like_failure.2.1 (fun _ => some "") (fun _ => "") (fun _ => [])
      (fun b h => b ++ h) "example.com" rfl⟩,
   ⟨by decide, by decide,
    C10_empty_body_like_failure.2.2 (fun _ => some "") (fun _ => "")
      "https://example.com/a" [] [] [] (by decide) (by decide) rfl⟩⟩

end CarbonSite
